import Mathlib

/-
Verification of the task-list / persistent-storage components of the
fullstack-js repository: the minimal Store (store.js / storage.js /
filters.js of zen-tasker src/modules), the standalone app.js to-do list,
and the ZenStorage localStorage manager.  JavaScript values that flow
through JSON are modelled by an inductive JSValue; the backing
localStorage is a keyed map of raw cells together with a flag saying
whether the storage facility works (an operation on a non-working store
throws).  Exceptions are modelled with Except.
-/

/-! ## JavaScript value model -/

/-- Model of a JSON-representable JavaScript value. -/
inductive JSValue where
  | null
  | bool (b : Bool)
  | num (n : Int)
  | str (s : String)
  | arr (elems : List JSValue)
  | obj (fields : List (String × JSValue))

/-- Property access on a value: an object yields the first binding of the
key, anything else yields undefined (modelled as none). -/
def objGet (v : JSValue) (key : String) : Option JSValue :=
  match v with
  | .obj fields =>
    match fields.find? (fun kv => kv.1 = key) with
    | some kv => some kv.2
    | none => none
  | _ => none

/-- JavaScript truthiness of a value. -/
def jsTruthy : JSValue → Bool
  | .null => false
  | .bool b => b
  | .num n => n != 0
  | .str s => s != ""
  | .arr _ => true
  | .obj _ => true

/-- Truthiness of a possibly-undefined value (undefined is falsy). -/
def jsTruthyOpt : Option JSValue → Bool
  | none => false
  | some v => jsTruthy v

/-- The test (typeof x === string) on a possibly-undefined value. -/
def isStringVal : Option JSValue → Bool
  | some (.str _) => true
  | _ => false

/-- Strict equality (===) of a possibly-undefined value with a string. -/
def strictEqStr (v : Option JSValue) (s : String) : Bool :=
  match v with
  | some (.str t) => t = s
  | _ => false

/-- Strict equality (===) of a possibly-undefined value with a boolean. -/
def strictEqBool (v : Option JSValue) (b : Bool) : Bool :=
  match v with
  | some (.bool c) => c = b
  | _ => false

/-- The trim method of JavaScript strings: leading and trailing
whitespace removed. -/
def jsTrim (s : String) : String :=
  ⟨(((s.data.dropWhile Char.isWhitespace).reverse).dropWhile Char.isWhitespace).reverse⟩

/-- The toLowerCase method of JavaScript strings (ASCII case mapping). -/
def jsToLowerCase (s : String) : String := ⟨s.data.map Char.toLower⟩

/-- Containment of one character list in another, scanning every
position. -/
def listContains (l sub : List Char) : Bool :=
  match l with
  | [] => sub.isEmpty
  | _ :: rest => sub.isPrefixOf l || listContains rest sub

/-- The includes method of JavaScript strings: substring containment. -/
def jsIncludes (s sub : String) : Bool :=
  listContains s.data sub.data

/-- Fields produced by spreading a value into an object literal: objects
contribute their fields, arrays and strings their indexed elements, other
primitives nothing. -/
def spreadFields : JSValue → List (String × JSValue)
  | .obj fields => fields
  | .arr xs => xs.enum.map (fun p => (Nat.repr p.1, p.2))
  | .str s => s.data.enum.map (fun p => (Nat.repr p.1, JSValue.str (String.singleton p.2)))
  | _ => []

/-- Merging of two field lists as an object literal does: keys of the
first list keep their position but are overridden by the second list, and
keys only in the second list are appended in order. -/
def mergeFields (a b : List (String × JSValue)) : List (String × JSValue) :=
  a.map (fun kv =>
    match b.find? (fun kv2 => kv2.1 = kv.1) with
    | some kv2 => (kv.1, kv2.2)
    | none => kv) ++
  b.filter (fun kv => (a.find? (fun kv2 => kv2.1 = kv.1)).isNone)

/-! ## localStorage model -/

/-- A raw string cell held in localStorage: either the JSON serialization
of a value, or a malformed string that JSON.parse rejects. -/
inductive StoredRaw where
  | json (v : JSValue)
  | malformed (s : String)

/-- The backing localStorage: a flag saying whether the storage facility
works (when it does not, any access to it throws: quota exceeded,
disabled, sandboxed context), and the stored key-value data. -/
structure LocalStore where
  works : Bool
  data : List (String × StoredRaw)

/-- Reading a key from the stored data (getItem result: null when
absent). -/
def LocalStore.getItem (ls : LocalStore) (key : String) : Option StoredRaw :=
  match ls.data.find? (fun kv => kv.1 = key) with
  | some kv => some kv.2
  | none => none

/-- Data after a successful setItem: the binding for the key is replaced
in place, or appended. -/
def setKey (data : List (String × StoredRaw)) (key : String) (r : StoredRaw) :
    List (String × StoredRaw) :=
  match data with
  | [] => [(key, r)]
  | (k, w) :: rest => if k = key then (k, r) :: rest else (k, w) :: setKey rest key r

/-- Store after a successful setItem. -/
def LocalStore.setItemData (ls : LocalStore) (key : String) (r : StoredRaw) : LocalStore :=
  { ls with data := setKey ls.data key r }

/-- Store after a successful removeItem. -/
def LocalStore.removeItemData (ls : LocalStore) (key : String) : LocalStore :=
  { ls with data := ls.data.filter (fun kv => kv.1 != key) }

/-- Model of JSON.parse applied to the result of getItem.  When the key
is absent, getItem yields null, which JSON.parse coerces to the string
"null" and successfully parses to the value null; a malformed string
makes JSON.parse throw (none). -/
def jsonParseRaw : Option StoredRaw → Option JSValue
  | none => some .null
  | some (.json v) => some v
  | some (.malformed _) => none

/-! ## zen-tasker src/modules/storage.js -/

/-- Namespace prefix of the zen-tasker module storage. -/
def zenNamespace : String := "zen-tasker"

/-- Namespaced key used by the storage wrapper. -/
def nsKey (key : String) : String := zenNamespace ++ ":" ++ key

/-- The parse member of safeJSON: JSON.parse of the raw getItem result
inside a try, returning the fallback when parsing throws. -/
def safeJSON.parse (raw : Option StoredRaw) (fallback : JSValue) : JSValue :=
  match jsonParseRaw raw with
  | some v => v
  | none => fallback

/-- The get member of the storage wrapper: reads the namespaced key and
parses it with safeJSON.parse.  The localStorage access itself is not
guarded, so when the storage facility does not work the call throws. -/
def storage.get (ls : LocalStore) (key : String) (fallback : JSValue) :
    Except Unit JSValue :=
  if ls.works then .ok (safeJSON.parse (ls.getItem (nsKey key)) fallback)
  else .error ()

/-- The set member of the storage wrapper: serializes and stores under the
namespaced key; throws when the storage facility does not work (no
try/catch in the source). -/
def storage.set (ls : LocalStore) (key : String) (value : JSValue) :
    Except Unit LocalStore :=
  if ls.works then .ok (ls.setItemData (nsKey key) (.json value))
  else .error ()

/-! ## zen-tasker src/modules/filters.js and store.js -/

/-- A task of the minimal store: the source literal has exactly the
fields id, title and completed. -/
structure Task6 where
  id : String
  title : String
  completed : Bool
deriving DecidableEq

/-- The Filters enumeration of filters.js. -/
inductive TaskFilter where
  | all
  | active
  | completed
deriving DecidableEq

/-- The byFilter predicate of filters.js. -/
def byFilter : TaskFilter → Task6 → Bool
  | .active, t => !t.completed
  | .completed, t => t.completed
  | .all, _ => true

/-- The module state of store.js: a task array and the current filter. -/
structure StoreState where
  tasks : List Task6
  filter : TaskFilter
deriving DecidableEq

/-- JSON encoding of a task as written by persist. -/
def taskToJS (t : Task6) : JSValue :=
  .obj [("id", .str t.id), ("title", .str t.title), ("completed", .bool t.completed)]

/-- String form of a filter value. -/
def filterToStr : TaskFilter → String
  | .all => "all"
  | .active => "active"
  | .completed => "completed"

/-- JSON encoding of the whole store state. -/
def encodeState (st : StoreState) : JSValue :=
  .obj [("tasks", .arr (st.tasks.map taskToJS)), ("filter", .str (filterToStr st.filter))]

/-- The persist closure of store.js: storage.set of the whole state under
the key state. -/
def Store.persist (st : StoreState) (ls : LocalStore) : Except Unit LocalStore :=
  storage.set ls "state" (encodeState st)

/-- The add operation of the Store: builds the task from the trimmed
title, rejects a blank title before touching anything, otherwise unshifts
the task into memory and then persists.  A persist failure propagates as
an exception after the in-memory mutation has already happened. -/
def Store.add (st : StoreState) (ls : LocalStore) (newId title : String) :
    StoreState × LocalStore × Except Unit (Option Task6) :=
  let task : Task6 := { id := newId, title := jsTrim title, completed := false }
  if task.title = "" then (st, ls, .ok none)
  else
    let st' : StoreState := { st with tasks := task :: st.tasks }
    match Store.persist st' ls with
    | .ok ls' => (st', ls', .ok (some task))
    | .error e => (st', ls, .error e)

/-- Flipping the completed flag of the first task with the given id, as
the in-place mutation of the found task object does. -/
def toggleFirst (tasks : List Task6) (id : String) : List Task6 :=
  match tasks with
  | [] => []
  | t :: rest =>
    if t.id = id then { t with completed := !t.completed } :: rest
    else t :: toggleFirst rest id

/-- The toggle operation of the Store: when a task with the id exists its
completed flag is flipped in memory and the state is persisted; a persist
failure propagates after the flip. -/
def Store.toggle (st : StoreState) (ls : LocalStore) (id : String) :
    StoreState × LocalStore × Except Unit Unit :=
  match st.tasks.find? (fun t => t.id = id) with
  | none => (st, ls, .ok ())
  | some _ =>
    let st' : StoreState := { st with tasks := toggleFirst st.tasks id }
    match Store.persist st' ls with
    | .ok ls' => (st', ls', .ok ())
    | .error e => (st', ls, .error e)

/-- The remove operation of the Store: filters the task out of memory and
persists unconditionally; a persist failure propagates after the
filtering. -/
def Store.remove (st : StoreState) (ls : LocalStore) (id : String) :
    StoreState × LocalStore × Except Unit Unit :=
  let st' : StoreState := { st with tasks := st.tasks.filter (fun t => t.id != id) }
  match Store.persist st' ls with
  | .ok ls' => (st', ls', .ok ())
  | .error e => (st', ls, .error e)

/-- The visible selector of the Store: the tasks passing the current
filter. -/
def Store.visible (st : StoreState) : List Task6 :=
  st.tasks.filter (byFilter st.filter)

/-- The stats selector of the Store. -/
def Store.stats (st : StoreState) : Nat × Nat × Nat :=
  let total := st.tasks.length
  let active := (st.tasks.filter (fun t => !t.completed)).length
  (total, active, total - active)

/-! ## zen-tasker js/app.js -/

/-- A task of the standalone app.js to-do list. -/
structure AppTask where
  id : String
  description : String
  completed : Bool
deriving DecidableEq

/-- The id built by addTask from the current Date.now value and the
random draw Math.floor of Math.random times 1000. -/
def appMakeId (now rand : Nat) : String :=
  Nat.repr now ++ "-" ++ Nat.repr rand

/-- The saveTasks function of app.js: an unguarded setItem of the
serialized task array (throws when the storage facility does not work). -/
def appSaveTasks (tasks : List AppTask) (ls : LocalStore) : Except Unit LocalStore :=
  if ls.works then
    .ok (ls.setItemData "zenTaskerTasks"
      (.json (.arr (tasks.map (fun t =>
        .obj [("id", .str t.id), ("description", .str t.description),
              ("completed", .bool t.completed)])))))
  else .error ()

/-- The addTask function of app.js: a blank trimmed description aborts
with an alert before any mutation; otherwise the new task is pushed and
the array saved, a save failure propagating after the push. -/
def appAddTask (tasks : List AppTask) (ls : LocalStore) (description : String)
    (now rand : Nat) : List AppTask × LocalStore × Except Unit Unit :=
  let descTrimmed := jsTrim description
  if descTrimmed = "" then (tasks, ls, .ok ())
  else
    let newTask : AppTask :=
      { id := appMakeId now rand, description := descTrimmed, completed := false }
    let tasks' := tasks ++ [newTask]
    match appSaveTasks tasks' ls with
    | .ok ls' => (tasks', ls', .ok ())
    | .error e => (tasks', ls, .error e)

/-- A sequence of addTask calls, each driven by its own description,
Date.now value and random draw.  Each call is a separate UI event, so an
exception thrown by one save aborts only that handler and the sequence
continues from the mutated state. -/
def appAddRun (tasks : List AppTask) (ls : LocalStore)
    (inputs : List (String × Nat × Nat)) : List AppTask × LocalStore :=
  match inputs with
  | [] => (tasks, ls)
  | (d, n, r) :: rest =>
    let out := appAddTask tasks ls d n r
    appAddRun out.1 out.2.1 rest

/-! ## ZenStorage -/

/-- Key of the ZenStorage task collection. -/
def zenTasksKey : String := "zenTasker_tasks"

/-- Key of the ZenStorage settings record. -/
def zenSettingsKey : String := "zenTasker_settings"

/-- The startup availability probe: writing and removing a probe key in a
try; any throw marks the storage unavailable. -/
def checkStorageAvailability (ls : LocalStore) : Bool × LocalStore :=
  if ls.works then
    (true, (ls.setItemData "__storage_test__"
      (.json (.str "__storage_test__"))).removeItemData "__storage_test__")
  else (false, ls)

/-- State of a ZenStorage instance: the availability flag computed once
by the constructor, and the backing store. -/
structure ZenStorageState where
  isStorageAvailable : Bool
  ls : LocalStore

/-- The ZenStorage constructor: runs the availability probe once. -/
def ZenStorage.init (ls : LocalStore) : ZenStorageState :=
  let probe := checkStorageAvailability ls
  { isStorageAvailable := probe.1, ls := probe.2 }

/-- The shape filter applied by getTasks to each parsed record: a truthy
record whose id and text are both strings. -/
def getTasksKeep (t : JSValue) : Bool :=
  jsTruthy t && isStringVal (objGet t "id") && isStringVal (objGet t "text")

/-- The shape filter applied by saveTasks to each record: a truthy record
with a truthy id and a truthy text that is a string. -/
def saveTasksKeep (t : JSValue) : Bool :=
  jsTruthy t && jsTruthyOpt (objGet t "id") && jsTruthyOpt (objGet t "text")
    && isStringVal (objGet t "text")

/-- The getTasks method: empty when unavailable; the absent key yields
the empty array; a JSON.parse throw is caught to the empty array, as is a
parsed value that is not an array (calling filter on it throws inside the
same try); otherwise the elements passing the shape filter, in order. -/
def ZenStorage.getTasks (s : ZenStorageState) : List JSValue :=
  if !s.isStorageAvailable then []
  else
    match s.ls.getItem zenTasksKey with
    | none => []
    | some (.malformed _) => []
    | some (.json v) =>
      match v with
      | .arr tasks => tasks.filter getTasksKeep
      | _ => []

/-- The saveTasks method: false when unavailable; otherwise the records
passing the shape filter are serialized and stored, a setItem throw being
caught to false with the store untouched. -/
def ZenStorage.saveTasks (s : ZenStorageState) (tasks : List JSValue) :
    Bool × ZenStorageState :=
  if !s.isStorageAvailable then (false, s)
  else
    let validTasks := tasks.filter saveTasksKeep
    if s.ls.works then
      (true, { s with ls := s.ls.setItemData zenTasksKey (.json (.arr validTasks)) })
    else (false, s)

/-- The merged record built by updateTask: the old record spread first,
then the updates, then the forced binding of id to taskId. -/
def spreadUpdate (old : JSValue) (updates : List (String × JSValue))
    (taskId : String) : JSValue :=
  .obj (mergeFields (mergeFields (spreadFields old) updates) [("id", .str taskId)])

/-- The updateTask method: looks the task up in the loaded collection by
strict id equality, returns false when absent, and otherwise saves the
collection with the merged record in place of the old one. -/
def ZenStorage.updateTask (s : ZenStorageState) (taskId : String)
    (updates : List (String × JSValue)) : Bool × ZenStorageState :=
  let tasks := ZenStorage.getTasks s
  match tasks.findIdx? (fun t => strictEqStr (objGet t "id") taskId) with
  | none => (false, s)
  | some i =>
    ZenStorage.saveTasks s (tasks.set i (spreadUpdate (tasks.getD i .null) updates taskId))

/-- The criteria record taken by getTasksByCriteria. -/
structure Criteria where
  completed : Option Bool := none
  priority : Option String := none
  search : Option String := none

/-- The per-task test of getTasksByCriteria: a present completed
criterion must strictly equal the record's completed field; a truthy
priority criterion must strictly equal the record's priority field; a
truthy search criterion must be contained case-insensitively in the
record's text (the whole query as one substring of the text alone). -/
def matchesCriteria (c : Criteria) (t : JSValue) : Bool :=
  (match c.completed with
   | none => true
   | some b => strictEqBool (objGet t "completed") b) &&
  (match c.priority with
   | none => true
   | some p => if p = "" then true else strictEqStr (objGet t "priority") p) &&
  (match c.search with
   | none => true
   | some q =>
     if q = "" then true
     else
       match objGet t "text" with
       | some (.str txt) => jsIncludes (jsToLowerCase txt) (jsToLowerCase q)
       | _ => false)

/-- The getTasksByCriteria method: the loaded tasks passing the criteria
test. -/
def ZenStorage.getTasksByCriteria (s : ZenStorageState) (c : Criteria) : List JSValue :=
  (ZenStorage.getTasks s).filter (matchesCriteria c)

/-- The default settings record. -/
def defaultSettingsFields : List (String × JSValue) :=
  [("theme", .str "zen"), ("defaultPriority", .str "medium"),
   ("autoSort", .bool true), ("showCompletedTasks", .bool true),
   ("soundEnabled", .bool false), ("animationsEnabled", .bool true)]

/-- The getDefaultSettings method. -/
def ZenStorage.getDefaultSettings : JSValue := .obj defaultSettingsFields

/-- The getSettings method: defaults when unavailable or when parsing
throws; otherwise the stored value (the empty record when the key is
absent) spread over the defaults. -/
def ZenStorage.getSettings (s : ZenStorageState) : JSValue :=
  if !s.isStorageAvailable then ZenStorage.getDefaultSettings
  else
    match s.ls.getItem zenSettingsKey with
    | none => .obj (mergeFields defaultSettingsFields (spreadFields (.obj [])))
    | some (.malformed _) => ZenStorage.getDefaultSettings
    | some (.json v) => .obj (mergeFields defaultSettingsFields (spreadFields v))

/-- The saveSettings method: false when unavailable; otherwise stores the
record, a setItem throw being caught to false. -/
def ZenStorage.saveSettings (s : ZenStorageState) (v : JSValue) :
    Bool × ZenStorageState :=
  if !s.isStorageAvailable then (false, s)
  else if s.ls.works then
    (true, { s with ls := s.ls.setItemData zenSettingsKey (.json v) })
  else (false, s)

/-- The clearAll method: false when unavailable; otherwise removes both
keys, a throw being caught to false. -/
def ZenStorage.clearAll (s : ZenStorageState) : Bool × ZenStorageState :=
  if !s.isStorageAvailable then (false, s)
  else if s.ls.works then
    (true, { s with ls := (s.ls.removeItemData zenTasksKey).removeItemData zenSettingsKey })
  else (false, s)

/-! ## ZenTaskManager (taskManager.js)

The ZenTaskManager class owns the in-memory task array; its persistence
calls go through zenStorage and only their boolean results matter to the
in-memory state, so they enter the definitions below as the saved
argument.  Timestamps are the ISO strings produced by the clock at the
call. -/

/-- A task as built by createTask: the seven fields of the task literal,
with a nullable completedAt. -/
structure ZenTask where
  id : String
  text : String
  priority : String
  completed : Bool
  createdAt : String
  updatedAt : String
  completedAt : Option String
deriving DecidableEq, Inhabited

/-- Collapsing every whitespace run to a single space, the effect of the
replace call with the whitespace-run pattern. -/
def collapseAux : List Char → Bool → List Char
  | [], _ => []
  | c :: rest, pendingSpace =>
    if c.isWhitespace then collapseAux rest true
    else (if pendingSpace then [' ', c] else [c]) ++ collapseAux rest false

/-- The whitespace replacement applied by validateTaskText to the
trimmed text. -/
def collapseWhitespace (s : String) : String :=
  ⟨collapseAux s.data false⟩

/-- The validateTaskText method: the trimmed text must have length 1 to
500 (the length check runs on the trimmed text, before the whitespace
collapsing), and only then is excessive whitespace collapsed. -/
def validateTaskText (text : String) : Option String :=
  let trimmed := jsTrim text
  if trimmed.length = 0 || trimmed.length > 500 then none
  else some (collapseWhitespace trimmed)

/-- The validatePriority method: one of low, medium, high, anything else
becoming medium. -/
def validatePriority (priority : String) : String :=
  if priority = "low" || priority = "medium" || priority = "high" then priority
  else "medium"

/-- The partial-fields record passed to updateTask by its callers in the
sources: toggleTask supplies completed, the edit flow supplies text. -/
structure ZenUpdate where
  text : Option String := none
  priority : Option String := none
  completed : Option Bool := none
deriving DecidableEq

/-- The createTask method: a text failing validation is rejected with
null before any mutation; otherwise the new task (completed false,
completedAt null) is pushed, and when the storage add fails every task
carrying the new id is filtered back out of memory and null returned. -/
def ZenTaskManager.createTask (tasks : List ZenTask) (now newId text priority : String)
    (saved : Bool) : List ZenTask × Option ZenTask :=
  match validateTaskText text with
  | none => (tasks, none)
  | some validatedText =>
    let task : ZenTask :=
      { id := newId, text := validatedText, priority := validatePriority priority,
        completed := false, createdAt := now, updatedAt := now, completedAt := none }
    let pushed := tasks ++ [task]
    if saved then (pushed, some task)
    else (pushed.filter (fun t => t.id ≠ task.id), none)

/-- The updated record built by updateTask: the current task spread
first, then the updates with a supplied text replaced by its validated
form, the forced id binding, the refreshed updatedAt, and completedAt
recomputed exactly when a supplied completed value differs from the
current one. -/
def updatedTaskRecord (now taskId : String) (currentTask : ZenTask)
    (newText : Option String) (u : ZenUpdate) : ZenTask :=
  { id := taskId,
    text := newText.getD currentTask.text,
    priority := match u.priority with
      | none => currentTask.priority
      | some p => validatePriority p,
    completed := u.completed.getD currentTask.completed,
    createdAt := currentTask.createdAt,
    updatedAt := now,
    completedAt := match u.completed with
      | none => currentTask.completedAt
      | some c =>
        if c != currentTask.completed then (if c then some now else none)
        else currentTask.completedAt }

/-- The updateTask method: the task is looked up with findIndex (the
first match only); a supplied text failing re-validation aborts with
false before any mutation; on success the record at that index is
replaced by the updated record, and when the storage update fails the
entry is reverted to the current task, leaving the collection as it
was. -/
def ZenTaskManager.updateTask (tasks : List ZenTask) (now taskId : String)
    (u : ZenUpdate) (saved : Bool) : List ZenTask × Bool :=
  match tasks.findIdx? (fun t => t.id = taskId) with
  | none => (tasks, false)
  | some taskIndex =>
    match (match u.text with
           | none => some none
           | some tx => (validateTaskText tx).map some) with
    | none => (tasks, false)
    | some newText =>
      if saved then
        (tasks.set taskIndex
          (updatedTaskRecord now taskId (tasks.getD taskIndex default) newText u),
         true)
      else (tasks, false)

/-- The toggleTask method: getTaskById (the first find) followed by an
update whose only field is the negated completed value. -/
def ZenTaskManager.toggleTask (tasks : List ZenTask) (now taskId : String)
    (saved : Bool) : List ZenTask × Bool :=
  match tasks.find? (fun t => t.id = taskId) with
  | none => (tasks, false)
  | some task =>
    ZenTaskManager.updateTask tasks now taskId
      { completed := some (!task.completed) } saved

/-- Insertion at an index, as splice with a zero delete count does. -/
def spliceInsert (l : List ZenTask) (i : Nat) (a : ZenTask) : List ZenTask :=
  l.take i ++ a :: l.drop i

/-- The deleteTask method: the task is looked up with findIndex; every
task carrying the id is filtered from memory, and when the storage
delete fails the remembered task is spliced back in at the original
index. -/
def ZenTaskManager.deleteTask (tasks : List ZenTask) (taskId : String)
    (saved : Bool) : List ZenTask × Bool :=
  match tasks.findIdx? (fun t => t.id = taskId) with
  | none => (tasks, false)
  | some taskIndex =>
    let deletedTask := tasks.getD taskIndex default
    let removed := tasks.filter (fun t => t.id ≠ taskId)
    if saved then (removed, true)
    else (spliceInsert removed taskIndex deletedTask, false)

/-- One ZenTaskManager operation with its environment inputs: the ISO
clock string, the generated id, and whether the storage call returned
true. -/
inductive ZenOp where
  | create (now newId text priority : String) (saved : Bool)
  | update (now taskId : String) (u : ZenUpdate) (saved : Bool)
  | toggle (now taskId : String) (saved : Bool)
  | del (taskId : String) (saved : Bool)

/-- The in-memory collection after one operation. -/
def ZenTaskManager.applyOp (tasks : List ZenTask) : ZenOp → List ZenTask
  | .create now newId text priority saved =>
    (ZenTaskManager.createTask tasks now newId text priority saved).1
  | .update now taskId u saved =>
    (ZenTaskManager.updateTask tasks now taskId u saved).1
  | .toggle now taskId saved => (ZenTaskManager.toggleTask tasks now taskId saved).1
  | .del taskId saved => (ZenTaskManager.deleteTask tasks taskId saved).1

/-- The collection reached from the empty one (a fresh manager over an
empty or unavailable store) by a sequence of operations. -/
def ZenTaskManager.run (ops : List ZenOp) : List ZenTask :=
  ops.foldl ZenTaskManager.applyOp []

/-- The completion invariant of one task, as a boolean: completed holds
exactly when completedAt is non-null. -/
def completionOk (t : ZenTask) : Bool :=
  t.completed = t.completedAt.isSome

/-! ## Helper lemmas -/

theorem find?_setKey_self (data : List (String × StoredRaw)) (key : String)
    (r : StoredRaw) :
    (setKey data key r).find? (fun kv => kv.1 = key) = some (key, r) := by
  induction data with
  | nil => simp [setKey]
  | cons hd tl ih =>
    obtain ⟨k, w⟩ := hd
    rw [setKey]
    by_cases h : k = key
    · subst h
      simp
    · simp only [h, if_false]
      rw [List.find?_cons_of_neg _ (by simpa using h)]
      exact ih

theorem getItem_setItemData_self (ls : LocalStore) (key : String) (r : StoredRaw) :
    (ls.setItemData key r).getItem key = some r := by
  simp [LocalStore.getItem, LocalStore.setItemData, find?_setKey_self]

theorem strictEqStr_eq {v : Option JSValue} {s : String}
    (h : strictEqStr v s = true) : v = some (.str s) := by
  rcases v with _ | j
  · simp [strictEqStr] at h
  · cases j with
    | str t0 =>
      simp only [strictEqStr, decide_eq_true_eq] at h
      rw [h]
    | null => simp [strictEqStr] at h
    | bool b => simp [strictEqStr] at h
    | num n => simp [strictEqStr] at h
    | arr xs => simp [strictEqStr] at h
    | obj fs => simp [strictEqStr] at h

theorem objGet_merge_last (a : List (String × JSValue)) (k : String) (v : JSValue) :
    objGet (.obj (mergeFields a [(k, v)])) k = some v := by
  induction a with
  | nil => simp [objGet, mergeFields]
  | cons kv rest ih =>
    by_cases h : kv.1 = k
    · have hb : List.find? (fun kv2 => kv2.1 = kv.1) [(k, v)] = some (k, v) := by
        simp [h]
      simp only [objGet, mergeFields, List.map_cons, List.cons_append, hb]
      rw [List.find?_cons_of_pos _ (by simp [h])]
    · have hb : List.find? (fun kv2 => kv2.1 = kv.1) [(k, v)] = none := by
        simp only [List.find?_cons, List.find?_nil]
        have : decide ((k, v).1 = kv.1) = false := by
          simp only [decide_eq_false_iff_not]
          exact fun hc => h hc.symm
        rw [this]
      have hstep : mergeFields (kv :: rest) [(k, v)] = kv :: mergeFields rest [(k, v)] := by
        simp only [mergeFields, List.map_cons, List.cons_append, hb]
        congr 1
        congr 1
        apply List.filter_congr
        intro x hx
        simp only [List.mem_singleton] at hx
        subst hx
        simp [h]
      rw [hstep]
      simp only [objGet]
      rw [List.find?_cons_of_neg _ (by simpa using h)]
      simpa only [objGet] using ih

theorem appAddTask_fst (tasks : List AppTask) (ls : LocalStore) (d : String)
    (n r : Nat) :
    (appAddTask tasks ls d n r).1 =
      if jsTrim d = "" then tasks
      else tasks ++ [⟨appMakeId n r, jsTrim d, false⟩] := by
  by_cases h : jsTrim d = ""
  · simp [appAddTask, h]
  · simp only [appAddTask, h, if_false]
    rcases hs : appSaveTasks (tasks ++ [⟨appMakeId n r, jsTrim d, false⟩]) ls with _ | _
    · simp [hs]
    · simp [hs]

theorem appAddRun_ids (inputs : List (String × Nat × Nat)) :
    ∀ (tasks : List AppTask) (ls : LocalStore),
    (appAddRun tasks ls inputs).1.map (fun t => t.id) =
      tasks.map (fun t => t.id) ++
        inputs.filterMap (fun x =>
          if jsTrim x.1 = "" then none else some (appMakeId x.2.1 x.2.2)) := by
  induction inputs with
  | nil => intro tasks ls; simp [appAddRun]
  | cons hd tl ih =>
    intro tasks ls
    obtain ⟨d, n, r⟩ := hd
    rw [appAddRun]
    rw [ih]
    by_cases h : jsTrim d = ""
    · simp [appAddTask_fst, h]
    · simp [appAddTask_fst, h]

theorem run_ids_sublist (inputs : List (String × Nat × Nat)) :
    (inputs.filterMap (fun x =>
        if jsTrim x.1 = "" then none else some (appMakeId x.2.1 x.2.2))).Sublist
      (inputs.map (fun x => appMakeId x.2.1 x.2.2)) := by
  induction inputs with
  | nil => simp
  | cons hd tl ih =>
    by_cases h : jsTrim hd.1 = ""
    · simp only [List.filterMap_cons, h, if_true, List.map_cons]
      exact ih.cons _
    · simp only [List.filterMap_cons, h, if_false, List.map_cons]
      exact ih.cons₂ _

theorem findIdx?_of_find? {α : Type} {l : List α} {p : α → Bool} {t : α}
    (h : l.find? p = some t) :
    ∃ i, l.findIdx? p = some i ∧ ∃ hlt : i < l.length, l[i] = t := by
  induction l with
  | nil => simp at h
  | cons a rest ih =>
    by_cases hp : p a = true
    · rw [List.find?_cons_of_pos _ hp] at h
      cases h
      refine ⟨0, ?_, by simp, rfl⟩
      simp [List.findIdx?_cons, hp]
    · rw [List.find?_cons_of_neg _ (by simpa using hp)] at h
      obtain ⟨i, hfi, hlt, hgi⟩ := ih h
      refine ⟨i + 1, ?_, by simpa using Nat.succ_lt_succ hlt, by simpa using hgi⟩
      simp [List.findIdx?_cons, hp, List.findIdx?_succ, hfi]

theorem find?_set_first {α : Type} {l : List α} {p : α → Bool} {i : Nat} {x : α}
    (hlt : i < l.length)
    (hb : ∀ j (hji : j < i), ¬p (l.get ⟨j, Nat.lt_trans hji hlt⟩) = true)
    (hx : p x = true) :
    (l.set i x).find? p = some x := by
  induction l generalizing i with
  | nil => simp at hlt
  | cons a rest ih =>
    cases i with
    | zero =>
      simp only [List.set_cons_zero]
      exact List.find?_cons_of_pos _ hx
    | succ n =>
      have ha : ¬p a = true := by
        have h0 := hb 0 (Nat.succ_pos n)
        simpa using h0
      simp only [List.set_cons_succ]
      rw [List.find?_cons_of_neg _ ha]
      refine ih (Nat.lt_of_succ_lt_succ (by simpa using hlt)) ?_
      intro j hji
      have h1 := hb (j + 1) (Nat.succ_lt_succ hji)
      simpa using h1

theorem getD_mem_of_findIdx? {tasks : List ZenTask} {p : ZenTask → Bool} {i : Nat}
    (hfi : tasks.findIdx? p = some i) : tasks.getD i default ∈ tasks := by
  obtain ⟨hlt, -, -⟩ := List.findIdx?_eq_some_iff_getElem.mp hfi
  rw [List.getD_eq_getElem?_getD, List.getElem?_eq_getElem hlt]
  exact List.getElem_mem hlt

theorem updatedTaskRecord_completionOk (now taskId : String) (cur : ZenTask)
    (nt : Option String) (u : ZenUpdate) (h : completionOk cur = true) :
    completionOk (updatedTaskRecord now taskId cur nt u) = true := by
  rcases u with ⟨ut, up, uc⟩
  rcases uc with _ | c
  · simpa [completionOk, updatedTaskRecord] using h
  · by_cases hc : c = cur.completed
    · subst hc
      simpa [completionOk, updatedTaskRecord] using h
    · simp only [completionOk, updatedTaskRecord, bne_iff_ne, ne_eq, hc,
        not_false_eq_true, if_true, Option.getD_some]
      cases c <;> simp

theorem createTask_preserves (tasks : List ZenTask) (now newId text priority : String)
    (saved : Bool) (h : ∀ t ∈ tasks, completionOk t = true) :
    ∀ t ∈ (ZenTaskManager.createTask tasks now newId text priority saved).1,
      completionOk t = true := by
  intro t ht
  simp only [ZenTaskManager.createTask] at ht
  split at ht
  · exact h t ht
  · split at ht
    · simp only [List.mem_append, List.mem_singleton] at ht
      rcases ht with ht | rfl
      · exact h t ht
      · simp [completionOk]
    · have hmem := (List.mem_filter.mp ht).1
      simp only [List.mem_append, List.mem_singleton] at hmem
      rcases hmem with hmem | rfl
      · exact h t hmem
      · simp [completionOk]

theorem updateTask_preserves (tasks : List ZenTask) (now taskId : String)
    (u : ZenUpdate) (saved : Bool) (h : ∀ t ∈ tasks, completionOk t = true) :
    ∀ t ∈ (ZenTaskManager.updateTask tasks now taskId u saved).1,
      completionOk t = true := by
  intro t ht
  rcases hfi : tasks.findIdx? (fun tt => tt.id = taskId) with _ | taskIndex
  · simp only [ZenTaskManager.updateTask, hfi] at ht
    exact h t ht
  · simp only [ZenTaskManager.updateTask, hfi] at ht
    split at ht
    · exact h t ht
    · split at ht
      · rcases List.mem_or_eq_of_mem_set ht with hmem | rfl
        · exact h t hmem
        · exact updatedTaskRecord_completionOk _ _ _ _ _
            (h _ (getD_mem_of_findIdx? hfi))
      · exact h t ht

theorem toggleTask_preserves (tasks : List ZenTask) (now taskId : String)
    (saved : Bool) (h : ∀ t ∈ tasks, completionOk t = true) :
    ∀ t ∈ (ZenTaskManager.toggleTask tasks now taskId saved).1,
      completionOk t = true := by
  intro t ht
  rw [ZenTaskManager.toggleTask] at ht
  split at ht
  · exact h t ht
  · exact updateTask_preserves tasks now taskId _ saved h t ht

theorem deleteTask_preserves (tasks : List ZenTask) (taskId : String) (saved : Bool)
    (h : ∀ t ∈ tasks, completionOk t = true) :
    ∀ t ∈ (ZenTaskManager.deleteTask tasks taskId saved).1, completionOk t = true := by
  intro t ht
  rcases hfi : tasks.findIdx? (fun tt => tt.id = taskId) with _ | taskIndex
  · simp only [ZenTaskManager.deleteTask, hfi] at ht
    exact h t ht
  · simp only [ZenTaskManager.deleteTask, hfi] at ht
    split at ht
    · exact h t (List.mem_filter.mp ht).1
    · simp only [spliceInsert, List.mem_append, List.mem_cons] at ht
      rcases ht with ht | ht | ht
      · exact h t (List.mem_filter.mp (List.mem_of_mem_take ht)).1
      · subst ht
        exact h _ (getD_mem_of_findIdx? hfi)
      · exact h t (List.mem_filter.mp (List.mem_of_mem_drop ht)).1

theorem applyOp_preserves (tasks : List ZenTask) (op : ZenOp)
    (h : ∀ t ∈ tasks, completionOk t = true) :
    ∀ t ∈ ZenTaskManager.applyOp tasks op, completionOk t = true := by
  cases op with
  | create now newId text priority saved =>
    exact createTask_preserves tasks now newId text priority saved h
  | update now taskId u saved => exact updateTask_preserves tasks now taskId u saved h
  | toggle now taskId saved => exact toggleTask_preserves tasks now taskId saved h
  | del taskId saved => exact deleteTask_preserves tasks taskId saved h

theorem run_preserves (ops : List ZenOp) :
    ∀ (tasks : List ZenTask), (∀ t ∈ tasks, completionOk t = true) →
    ∀ t ∈ List.foldl ZenTaskManager.applyOp tasks ops, completionOk t = true := by
  induction ops with
  | nil => intro tasks h; simpa using h
  | cons op rest ih =>
    intro tasks h
    exact ih (ZenTaskManager.applyOp tasks op) (applyOp_preserves tasks op h)

theorem toggleTask_result (tasks : List ZenTask) (now taskId : String)
    (task : ZenTask) (hf : tasks.find? (fun t => t.id = taskId) = some task) :
    ∃ t2, (ZenTaskManager.toggleTask tasks now taskId true).1.find?
        (fun t => t.id = taskId) = some t2
      ∧ t2.completed = !task.completed
      ∧ t2.completedAt = (if !task.completed then some now else none) := by
  obtain ⟨i, hfi, hlt, hgi⟩ := findIdx?_of_find? hf
  obtain ⟨hlt2, hpi, hb⟩ := List.findIdx?_eq_some_iff_getElem.mp hfi
  have hcur : tasks.getD i default = task := by
    rw [List.getD_eq_getElem?_getD, List.getElem?_eq_getElem hlt]
    simpa using hgi
  refine ⟨updatedTaskRecord now taskId (tasks.getD i default) none
    { completed := some (!task.completed) }, ?_, ?_, ?_⟩
  · simp only [ZenTaskManager.toggleTask, hf, ZenTaskManager.updateTask, hfi]
    rw [if_pos trivial]
    exact find?_set_first hlt2 hb (by simp [updatedTaskRecord])
  · simp [updatedTaskRecord, hcur]
  · simp only [updatedTaskRecord, hcur]
    cases task.completed <;> simp

/-! ## Claim C1 -/

/-- Claim C1 counterexample: starting from the empty collection with a
non-working backing store, Store.add leaves the new task in memory (the
collection after the failed call is the one-task collection, not the
empty pre-operation one) while the persist failure propagates.  This
refutes the claim that the in-memory collection equals the pre-operation
collection after a failed persistence write. -/
theorem c1_counterexample :
    (Store.add ⟨[], .all⟩ ⟨false, []⟩ "id1" "a").1.tasks = [⟨"id1", "a", false⟩]
    ∧ (⟨[⟨"id1", "a", false⟩], .all⟩ : StoreState) ≠ (⟨[], .all⟩ : StoreState)
    ∧ (Store.add ⟨[], .all⟩ ⟨false, []⟩ "id1" "a").2.2 = .error () := by
  refine ⟨by decide, by decide, rfl⟩

/-- Claim C1 (amended): when the persistence write fails, each mutating
operation of the Store reports the failure to the caller (the exception
from storage.set propagates, it is not swallowed), but the in-memory
collection is not rolled back: after add it holds the unshifted new task,
after toggle the flipped task, after remove the filtered list. -/
theorem c1_no_rollback (st : StoreState) (ls : LocalStore) (newId title id : String)
    (hw : ls.works = false) (htitle : jsTrim title ≠ "")
    (hfound : (st.tasks.find? (fun t => t.id = id)).isSome) :
    Store.add st ls newId title =
      ({ st with tasks := ⟨newId, jsTrim title, false⟩ :: st.tasks }, ls, .error ())
    ∧ Store.toggle st ls id =
      ({ st with tasks := toggleFirst st.tasks id }, ls, .error ())
    ∧ Store.remove st ls id =
      ({ st with tasks := st.tasks.filter (fun t => t.id != id) }, ls, .error ()) := by
  refine ⟨?_, ?_, ?_⟩
  · simp [Store.add, htitle, Store.persist, storage.set, hw]
  · obtain ⟨t, ht⟩ := Option.isSome_iff_exists.mp hfound
    simp [Store.toggle, ht, Store.persist, storage.set, hw]
  · simp [Store.remove, Store.persist, storage.set, hw]

/-- Claim C1 witness: the amended statement evaluated on a one-task
collection over a non-working store. -/
theorem c1_witness :
    (⟨false, []⟩ : LocalStore).works = false
    ∧ jsTrim "milk" ≠ ""
    ∧ ((⟨[⟨"a", "x", false⟩], .all⟩ : StoreState).tasks.find?
        (fun t => t.id = "a")).isSome
    ∧ (Store.add ⟨[⟨"a", "x", false⟩], .all⟩ ⟨false, []⟩ "b" "milk"
        = (⟨[⟨"b", jsTrim "milk", false⟩, ⟨"a", "x", false⟩], .all⟩,
           ⟨false, []⟩, .error ())
      ∧ Store.toggle ⟨[⟨"a", "x", false⟩], .all⟩ ⟨false, []⟩ "a"
        = (⟨toggleFirst [⟨"a", "x", false⟩] "a", .all⟩, ⟨false, []⟩, .error ())
      ∧ Store.remove ⟨[⟨"a", "x", false⟩], .all⟩ ⟨false, []⟩ "a"
        = (⟨[⟨"a", "x", false⟩].filter (fun t => t.id != "a"), .all⟩,
           ⟨false, []⟩, .error ())) :=
  ⟨rfl, by decide, by decide,
   c1_no_rollback ⟨[⟨"a", "x", false⟩], .all⟩ ⟨false, []⟩ "b" "milk" "a"
     rfl (by decide) (by decide)⟩

/-! ## Claim C2 -/

/-- Claim C2 counterexample: in the minimal Store a reachable state (add
then toggle) holds a task with completed true whose record carries no
completedAt property at all (the property access yields undefined, which
is loosely equal to null), refuting the claimed equivalence of completed
with a non-null completedAt for that implementation. -/
theorem c2_counterexample :
    (Store.toggle (Store.add ⟨[], .all⟩ ⟨true, []⟩ "id1" "walk").1
        (Store.add ⟨[], .all⟩ ⟨true, []⟩ "id1" "walk").2.1 "id1").1.tasks
      = [⟨"id1", "walk", true⟩]
    ∧ objGet (taskToJS ⟨"id1", "walk", true⟩) "completedAt" = none := by
  refine ⟨by decide, rfl⟩

/-- Claim C2 (amended): for the ZenTaskManager implementation, every
in-memory collection reachable by create, update, toggle and delete
operations satisfies completed equal to completedAt.isSome for every
task, and toggling a task found incomplete yields it completed with
completedAt set to the clock value, while toggling a completed task
clears completedAt.  The minimal Store maintains no completedAt field, so
the equivalence does not hold there. -/
theorem c2_completion_invariant (ops : List ZenOp) (tasks : List ZenTask)
    (now taskId : String) (task : ZenTask)
    (hf : tasks.find? (fun t => t.id = taskId) = some task) :
    (∀ u ∈ ZenTaskManager.run ops, completionOk u = true)
    ∧ (task.completed = false →
        ∃ t2, (ZenTaskManager.toggleTask tasks now taskId true).1.find?
            (fun t => t.id = taskId) = some t2
          ∧ t2.completed = true ∧ t2.completedAt = some now)
    ∧ (task.completed = true →
        ∃ t2, (ZenTaskManager.toggleTask tasks now taskId true).1.find?
            (fun t => t.id = taskId) = some t2
          ∧ t2.completed = false ∧ t2.completedAt = none) := by
  refine ⟨?_, ?_, ?_⟩
  · intro u hu
    exact run_preserves ops [] (by simp) u hu
  · intro hc
    obtain ⟨t2, hfind, hcomp, hat⟩ := toggleTask_result tasks now taskId task hf
    exact ⟨t2, hfind, by simp [hcomp, hc], by simp [hat, hc]⟩
  · intro hc
    obtain ⟨t2, hfind, hcomp, hat⟩ := toggleTask_result tasks now taskId task hf
    exact ⟨t2, hfind, by simp [hcomp, hc], by simp [hat, hc]⟩

/-- Claim C2 witness: the amended statement evaluated on a one-task
collection and a two-operation history. -/
theorem c2_witness :
    ([⟨"a", "t", "medium", false, "T0", "T0", none⟩] : List ZenTask).find?
        (fun u => u.id = "a") = some ⟨"a", "t", "medium", false, "T0", "T0", none⟩
    ∧ ((∀ u ∈ ZenTaskManager.run
          [.create "T1" "i" "buy milk" "low" true, .toggle "T2" "i" true],
          completionOk u = true)
      ∧ ((⟨"a", "t", "medium", false, "T0", "T0", none⟩ : ZenTask).completed = false →
          ∃ t2, (ZenTaskManager.toggleTask
              [⟨"a", "t", "medium", false, "T0", "T0", none⟩] "T9" "a" true).1.find?
              (fun u => u.id = "a") = some t2
            ∧ t2.completed = true ∧ t2.completedAt = some "T9")
      ∧ ((⟨"a", "t", "medium", false, "T0", "T0", none⟩ : ZenTask).completed = true →
          ∃ t2, (ZenTaskManager.toggleTask
              [⟨"a", "t", "medium", false, "T0", "T0", none⟩] "T9" "a" true).1.find?
              (fun u => u.id = "a") = some t2
            ∧ t2.completed = false ∧ t2.completedAt = none)) :=
  ⟨rfl, c2_completion_invariant
    [.create "T1" "i" "buy milk" "low" true, .toggle "T2" "i" true]
    [⟨"a", "t", "medium", false, "T0", "T0", none⟩] "T9" "a"
    ⟨"a", "t", "medium", false, "T0", "T0", none⟩ rfl⟩

/-! ## Claim C3 -/

/-- Claim C3 counterexample: on a working store with no entry for the
key, storage.get returns the JavaScript null value, not the
caller-supplied fallback (JSON.parse coerces the absent null to the
string null and parses it successfully), and on an unavailable store the
unguarded localStorage access makes storage.get throw instead of
returning the fallback. -/
theorem c3_counterexample :
    storage.get ⟨true, []⟩ "state" (.str "fallback") = .ok .null
    ∧ JSValue.null ≠ JSValue.str "fallback"
    ∧ storage.get ⟨false, []⟩ "state" (.str "fallback") = .error () := by
  refine ⟨rfl, by simp, rfl⟩

/-- Claim C3 (amended): storage.get returns the fallback only when the
stored string is malformed JSON; when the key is absent it returns the
value null (the result of JSON.parse applied to the coerced absent
value), and when the store is unavailable it throws.  ZenStorage.getTasks,
by contrast, returns the empty list in all three situations. -/
theorem c3_read_fallback (lsA lsB lsC : LocalStore) (key : String) (fb : JSValue)
    (bad bad2 : String) (sA sB sC : ZenStorageState)
    (hA : lsA.works = true) (hAn : lsA.getItem (nsKey key) = none)
    (hB : lsB.works = true) (hBm : lsB.getItem (nsKey key) = some (.malformed bad))
    (hC : lsC.works = false)
    (h4 : sA.isStorageAvailable = false)
    (h5 : sB.isStorageAvailable = true) (h5n : sB.ls.getItem zenTasksKey = none)
    (h6 : sC.isStorageAvailable = true)
    (h6m : sC.ls.getItem zenTasksKey = some (.malformed bad2)) :
    storage.get lsA key fb = .ok .null
    ∧ storage.get lsB key fb = .ok fb
    ∧ storage.get lsC key fb = .error ()
    ∧ ZenStorage.getTasks sA = []
    ∧ ZenStorage.getTasks sB = []
    ∧ ZenStorage.getTasks sC = [] := by
  refine ⟨?_, ?_, ?_, ?_, ?_, ?_⟩
  · simp [storage.get, hA, hAn, safeJSON.parse, jsonParseRaw]
  · simp [storage.get, hB, hBm, safeJSON.parse, jsonParseRaw]
  · simp [storage.get, hC]
  · simp [ZenStorage.getTasks, h4]
  · simp [ZenStorage.getTasks, h5, h5n]
  · simp [ZenStorage.getTasks, h6, h6m]

/-- Claim C3 witness: the amended statement evaluated on concrete stores
(absent key, malformed cell, non-working store). -/
theorem c3_witness :
    (⟨true, []⟩ : LocalStore).works = true
    ∧ (⟨true, []⟩ : LocalStore).getItem (nsKey "state") = none
    ∧ (⟨true, [("zen-tasker:state", .malformed "oops")]⟩ : LocalStore).works = true
    ∧ (⟨true, [("zen-tasker:state", .malformed "oops")]⟩ : LocalStore).getItem
        (nsKey "state") = some (.malformed "oops")
    ∧ (⟨false, []⟩ : LocalStore).works = false
    ∧ (⟨false, ⟨true, []⟩⟩ : ZenStorageState).isStorageAvailable = false
    ∧ (⟨true, ⟨true, []⟩⟩ : ZenStorageState).isStorageAvailable = true
    ∧ (⟨true, ⟨true, []⟩⟩ : ZenStorageState).ls.getItem zenTasksKey = none
    ∧ (⟨true, ⟨true, [(zenTasksKey, .malformed "xx")]⟩⟩
        : ZenStorageState).isStorageAvailable = true
    ∧ (⟨true, ⟨true, [(zenTasksKey, .malformed "xx")]⟩⟩
        : ZenStorageState).ls.getItem zenTasksKey = some (.malformed "xx")
    ∧ (storage.get ⟨true, []⟩ "state" (.bool true) = .ok .null
      ∧ storage.get ⟨true, [("zen-tasker:state", .malformed "oops")]⟩ "state"
          (.bool true) = .ok (.bool true)
      ∧ storage.get ⟨false, []⟩ "state" (.bool true) = .error ()
      ∧ ZenStorage.getTasks ⟨false, ⟨true, []⟩⟩ = []
      ∧ ZenStorage.getTasks ⟨true, ⟨true, []⟩⟩ = []
      ∧ ZenStorage.getTasks ⟨true, ⟨true, [(zenTasksKey, .malformed "xx")]⟩⟩ = []) :=
  ⟨rfl, rfl, rfl, rfl, rfl, rfl, rfl, rfl, rfl, rfl,
   c3_read_fallback ⟨true, []⟩ ⟨true, [("zen-tasker:state", .malformed "oops")]⟩
     ⟨false, []⟩ "state" (.bool true) "oops" "xx"
     ⟨false, ⟨true, []⟩⟩ ⟨true, ⟨true, []⟩⟩
     ⟨true, ⟨true, [(zenTasksKey, .malformed "xx")]⟩⟩
     rfl rfl rfl rfl rfl rfl rfl rfl rfl rfl⟩

/-! ## Claim C4 -/

/-- Claim C4 counterexample: a task with text Buy shopping bags and
priority high is not returned for the query high shop, because
getTasksByCriteria matches the whole query as one substring of the text
alone; the claimed term-splitting composite search would have matched. -/
theorem c4_counterexample :
    ZenStorage.getTasksByCriteria
      ⟨true, ⟨true, [(zenTasksKey, .json (.arr [.obj [("id", .str "1"),
        ("text", .str "Buy shopping bags"), ("priority", .str "high"),
        ("completed", .bool false)]]))]⟩⟩
      { search := some "high shop" } = ([] : List JSValue) := by
  rfl

/-- Claim C4 (amended): for a non-empty query, getTasksByCriteria with
only the search criterion returns exactly the loaded tasks whose text,
lowercased, contains the whole lowercased query as one substring; the
query is not split into terms and priority, completion state and creation
date take no part in the match. -/
theorem c4_search_substring (s : ZenStorageState) (q : String) (t : JSValue)
    (hq : q ≠ "") :
    t ∈ ZenStorage.getTasksByCriteria s { search := some q } ↔
      t ∈ ZenStorage.getTasks s ∧
        ∃ txt, objGet t "text" = some (.str txt)
          ∧ jsIncludes (jsToLowerCase txt) (jsToLowerCase q) = true := by
  rw [ZenStorage.getTasksByCriteria, List.mem_filter]
  constructor
  · rintro ⟨hmem, hmatch⟩
    refine ⟨hmem, ?_⟩
    simp only [matchesCriteria, hq, if_false] at hmatch
    rcases hop : objGet t "text" with _ | v
    · rw [hop] at hmatch
      simp at hmatch
    · rw [hop] at hmatch
      cases v with
      | str txt => exact ⟨txt, rfl, by simpa using hmatch⟩
      | _ => simp at hmatch
  · rintro ⟨hmem, txt, hop, hinc⟩
    refine ⟨hmem, ?_⟩
    simp [matchesCriteria, hq, hop, hinc]

/-- Claim C4 witness: the amended statement evaluated on the shopping-bag
task with the query shop, which does match as a substring of the text. -/
theorem c4_witness :
    ("shop" : String) ≠ ""
    ∧ (JSValue.obj [("id", .str "1"), ("text", .str "Buy shopping bags"),
        ("priority", .str "high"), ("completed", .bool false)]
      ∈ ZenStorage.getTasksByCriteria
        ⟨true, ⟨true, [(zenTasksKey, .json (.arr [.obj [("id", .str "1"),
          ("text", .str "Buy shopping bags"), ("priority", .str "high"),
          ("completed", .bool false)]]))]⟩⟩
        { search := some "shop" } ↔
      JSValue.obj [("id", .str "1"), ("text", .str "Buy shopping bags"),
        ("priority", .str "high"), ("completed", .bool false)]
      ∈ ZenStorage.getTasks
        ⟨true, ⟨true, [(zenTasksKey, .json (.arr [.obj [("id", .str "1"),
          ("text", .str "Buy shopping bags"), ("priority", .str "high"),
          ("completed", .bool false)]]))]⟩⟩ ∧
        ∃ txt, objGet (JSValue.obj [("id", .str "1"),
            ("text", .str "Buy shopping bags"), ("priority", .str "high"),
            ("completed", .bool false)]) "text" = some (.str txt)
          ∧ jsIncludes (jsToLowerCase txt) (jsToLowerCase "shop") = true) :=
  ⟨by decide,
   c4_search_substring
     ⟨true, ⟨true, [(zenTasksKey, .json (.arr [.obj [("id", .str "1"),
       ("text", .str "Buy shopping bags"), ("priority", .str "high"),
       ("completed", .bool false)]]))]⟩⟩
     "shop"
     (.obj [("id", .str "1"), ("text", .str "Buy shopping bags"),
       ("priority", .str "high"), ("completed", .bool false)])
     (by decide)⟩

/-! ## Claim C5 -/

/-- Claim C5: when the startup probe throws (the storage facility does
not work), the constructed instance is marked unavailable with the
backing store untouched, getTasks returns the empty list, getSettings the
default settings, and saveTasks, saveSettings and clearAll return false
with the state unchanged, so the degraded behaviour persists for the
whole lifetime of the instance. -/
theorem c5_unavailable_degraded (ls : LocalStore) (tasks : List JSValue)
    (v : JSValue) (hw : ls.works = false) :
    (ZenStorage.init ls).isStorageAvailable = false
    ∧ (ZenStorage.init ls).ls = ls
    ∧ ZenStorage.getTasks (ZenStorage.init ls) = []
    ∧ ZenStorage.getSettings (ZenStorage.init ls) = ZenStorage.getDefaultSettings
    ∧ ZenStorage.saveTasks (ZenStorage.init ls) tasks = (false, ZenStorage.init ls)
    ∧ ZenStorage.saveSettings (ZenStorage.init ls) v = (false, ZenStorage.init ls)
    ∧ ZenStorage.clearAll (ZenStorage.init ls) = (false, ZenStorage.init ls) := by
  simp [ZenStorage.init, checkStorageAvailability, hw, ZenStorage.getTasks,
    ZenStorage.getSettings, ZenStorage.saveTasks, ZenStorage.saveSettings,
    ZenStorage.clearAll]

/-- Claim C5 witness: the degraded behaviour evaluated on a concrete
non-working store holding stale data. -/
theorem c5_witness :
    (⟨false, [("zenTasker_tasks", .json (.arr [.null]))]⟩ : LocalStore).works = false
    ∧ ((ZenStorage.init ⟨false, [("zenTasker_tasks", .json (.arr [.null]))]⟩
        ).isStorageAvailable = false
      ∧ (ZenStorage.init ⟨false, [("zenTasker_tasks", .json (.arr [.null]))]⟩).ls
        = ⟨false, [("zenTasker_tasks", .json (.arr [.null]))]⟩
      ∧ ZenStorage.getTasks
          (ZenStorage.init ⟨false, [("zenTasker_tasks", .json (.arr [.null]))]⟩) = []
      ∧ ZenStorage.getSettings
          (ZenStorage.init ⟨false, [("zenTasker_tasks", .json (.arr [.null]))]⟩)
        = ZenStorage.getDefaultSettings
      ∧ ZenStorage.saveTasks
          (ZenStorage.init ⟨false, [("zenTasker_tasks", .json (.arr [.null]))]⟩)
          [.bool true]
        = (false, ZenStorage.init ⟨false, [("zenTasker_tasks", .json (.arr [.null]))]⟩)
      ∧ ZenStorage.saveSettings
          (ZenStorage.init ⟨false, [("zenTasker_tasks", .json (.arr [.null]))]⟩)
          (.bool true)
        = (false, ZenStorage.init ⟨false, [("zenTasker_tasks", .json (.arr [.null]))]⟩)
      ∧ ZenStorage.clearAll
          (ZenStorage.init ⟨false, [("zenTasker_tasks", .json (.arr [.null]))]⟩)
        = (false,
           ZenStorage.init ⟨false, [("zenTasker_tasks", .json (.arr [.null]))]⟩)) :=
  ⟨rfl, c5_unavailable_degraded ⟨false, [("zenTasker_tasks", .json (.arr [.null]))]⟩
    [.bool true] (.bool true) rfl⟩

/-! ## Claim C6 -/

/-- Claim C6: the visible selector with the active filter returns exactly
the tasks with completed false, the completed filter exactly those with
completed true, the all filter the full collection; the active and
completed results are disjoint and together a permutation of the full
collection. -/
theorem c6_filter_correctness (tasks : List Task6) :
    (∀ t, t ∈ Store.visible ⟨tasks, .active⟩ ↔ t ∈ tasks ∧ t.completed = false)
    ∧ (∀ t, t ∈ Store.visible ⟨tasks, .completed⟩ ↔ t ∈ tasks ∧ t.completed = true)
    ∧ Store.visible ⟨tasks, .all⟩ = tasks
    ∧ (Store.visible ⟨tasks, .active⟩ ++ Store.visible ⟨tasks, .completed⟩).Perm tasks
    ∧ List.Disjoint (Store.visible ⟨tasks, .active⟩)
        (Store.visible ⟨tasks, .completed⟩) := by
  refine ⟨?_, ?_, ?_, ?_, ?_⟩
  · intro t
    simp [Store.visible, byFilter, List.mem_filter]
  · intro t
    simp [Store.visible, byFilter, List.mem_filter]
  · simp [Store.visible, byFilter]
  · have h := List.filter_append_perm (fun t : Task6 => !t.completed) tasks
    simpa [Store.visible, byFilter, Bool.not_not] using h
  · intro t ht ht2
    simp [Store.visible, byFilter, List.mem_filter] at ht ht2
    exact absurd ht2.2 (by simp [ht.2])

/-- Claim C6 witness: the filter properties evaluated on a two-task
collection with one active and one completed task. -/
theorem c6_witness :
    (∀ t, t ∈ Store.visible ⟨[⟨"1", "a", false⟩, ⟨"2", "b", true⟩], .active⟩ ↔
        t ∈ [⟨"1", "a", false⟩, ⟨"2", "b", true⟩] ∧ t.completed = false)
    ∧ (∀ t, t ∈ Store.visible ⟨[⟨"1", "a", false⟩, ⟨"2", "b", true⟩], .completed⟩ ↔
        t ∈ [⟨"1", "a", false⟩, ⟨"2", "b", true⟩] ∧ t.completed = true)
    ∧ Store.visible ⟨[⟨"1", "a", false⟩, ⟨"2", "b", true⟩], .all⟩
        = [⟨"1", "a", false⟩, ⟨"2", "b", true⟩]
    ∧ (Store.visible ⟨[⟨"1", "a", false⟩, ⟨"2", "b", true⟩], .active⟩
        ++ Store.visible ⟨[⟨"1", "a", false⟩, ⟨"2", "b", true⟩], .completed⟩).Perm
        [⟨"1", "a", false⟩, ⟨"2", "b", true⟩]
    ∧ List.Disjoint (Store.visible ⟨[⟨"1", "a", false⟩, ⟨"2", "b", true⟩], .active⟩)
        (Store.visible ⟨[⟨"1", "a", false⟩, ⟨"2", "b", true⟩], .completed⟩) :=
  c6_filter_correctness [⟨"1", "a", false⟩, ⟨"2", "b", true⟩]

/-! ## Claim C7 -/

/-- Claim C7 counterexample: two addTask calls that happen in the same
millisecond with the same random draw assign the same id to both tasks,
so the ids of a create sequence are not always pairwise distinct. -/
theorem c7_counterexample :
    ((appAddRun [] ⟨true, []⟩ [("a", 0, 0), ("b", 0, 0)]).1.map (fun t => t.id))
      = ["0-0", "0-0"]
    ∧ ¬ ((appAddRun [] ⟨true, []⟩ [("a", 0, 0), ("b", 0, 0)]).1.map
        (fun t => t.id)).Nodup := by
  refine ⟨by decide, by decide⟩

/-- Claim C7 (amended): the ids of the tasks produced by a sequence of
addTask calls are pairwise distinct provided the id strings generated
from the Date.now values and random draws of the calls are pairwise
distinct; the generator itself does not guarantee this when two calls
share a millisecond and a draw. -/
theorem c7_ids_distinct (inputs : List (String × Nat × Nat)) (ls : LocalStore)
    (h : (inputs.map (fun x => appMakeId x.2.1 x.2.2)).Nodup) :
    ((appAddRun [] ls inputs).1.map (fun t => t.id)).Nodup := by
  rw [appAddRun_ids]
  simp only [List.map_nil, List.nil_append]
  exact (run_ids_sublist inputs).nodup h

/-- Claim C7 witness: two adds with distinct millisecond timestamps give
distinct ids. -/
theorem c7_witness :
    ([("a", 0, 0), ("b", 1, 0)].map (fun x => appMakeId x.2.1 x.2.2)).Nodup
    ∧ ((appAddRun [] ⟨true, []⟩ [("a", 0, 0), ("b", 1, 0)]).1.map
        (fun t => t.id)).Nodup :=
  ⟨by decide, c7_ids_distinct [("a", 0, 0), ("b", 1, 0)] ⟨true, []⟩ (by decide)⟩

/-! ## Claim C8 -/

/-- Claim C8: a text that trims to the empty string is rejected by every
create operation without any mutation: Store.add returns undefined and
leaves the in-memory state and the backing store untouched, the app.js
addTask aborts before pushing or saving, and the ZenTaskManager
createTask rejects it in validateTaskText (trimmed length zero) before
touching the collection or the storage. -/
theorem c8_blank_text_rejected (st : StoreState) (ls als : LocalStore)
    (tasks : List AppTask) (zts : List ZenTask) (newId text priority : String)
    (znow : String) (now rand : Nat) (saved : Bool) (h : jsTrim text = "") :
    Store.add st ls newId text = (st, ls, .ok none)
    ∧ appAddTask tasks als text now rand = (tasks, als, .ok ())
    ∧ ZenTaskManager.createTask zts znow newId text priority saved
        = (zts, none) := by
  refine ⟨?_, ?_, ?_⟩
  · simp [Store.add, h]
  · simp [appAddTask, h]
  · simp [ZenTaskManager.createTask, validateTaskText, h]

/-- Claim C8 witness: the whitespace-only text of the spec scenario with
priority high is rejected by all three create operations with the
collections unchanged. -/
theorem c8_witness :
    jsTrim "   " = ""
    ∧ (Store.add ⟨[⟨"1", "a", false⟩], .all⟩ ⟨true, []⟩ "2" "   "
        = (⟨[⟨"1", "a", false⟩], .all⟩, ⟨true, []⟩, .ok none)
      ∧ appAddTask [] ⟨true, []⟩ "   " 5 7 = ([], ⟨true, []⟩, .ok ())
      ∧ ZenTaskManager.createTask [] "T5" "2" "   " "high" true = ([], none)) :=
  ⟨rfl, c8_blank_text_rejected ⟨[⟨"1", "a", false⟩], .all⟩ ⟨true, []⟩ ⟨true, []⟩
    [] [] "2" "   " "high" "T5" 5 7 true rfl⟩

/-! ## Claim C9 -/

/-- Claim C9: when updateTask finds the task at an index, the found
record has the looked-up id, the merged record written in its place keeps
that id even when the updates themselves carry an id field (the final
forced binding overrides it), and updateTask is exactly the save of the
collection with the merged record substituted at that index. -/
theorem c9_update_preserves_id (s : ZenStorageState) (taskId : String)
    (updates : List (String × JSValue)) (i : Nat)
    (hfind : (ZenStorage.getTasks s).findIdx?
        (fun t => strictEqStr (objGet t "id") taskId) = some i) :
    objGet ((ZenStorage.getTasks s).getD i .null) "id" = some (.str taskId)
    ∧ objGet (spreadUpdate ((ZenStorage.getTasks s).getD i .null) updates taskId) "id"
        = some (.str taskId)
    ∧ ZenStorage.updateTask s taskId updates
        = ZenStorage.saveTasks s ((ZenStorage.getTasks s).set i
            (spreadUpdate ((ZenStorage.getTasks s).getD i .null) updates taskId)) := by
  obtain ⟨hlt, hp, -⟩ := List.findIdx?_eq_some_iff_getElem.mp hfind
  have hgetD : (ZenStorage.getTasks s).getD i .null = (ZenStorage.getTasks s)[i] := by
    simp [List.getD_eq_getElem?_getD, List.getElem?_eq_getElem hlt]
  refine ⟨?_, ?_, ?_⟩
  · rw [hgetD]
    exact strictEqStr_eq hp
  · exact objGet_merge_last _ _ _
  · simp [ZenStorage.updateTask, hfind]

/-- Claim C9 witness: an update whose partial-fields object carries a
different id leaves the stored id unchanged. -/
theorem c9_witness :
    (ZenStorage.getTasks ⟨true, ⟨true, [(zenTasksKey, .json (.arr [.obj
        [("id", .str "7"), ("text", .str "a")]]))]⟩⟩).findIdx?
      (fun t => strictEqStr (objGet t "id") "7") = some 0
    ∧ (objGet ((ZenStorage.getTasks ⟨true, ⟨true, [(zenTasksKey, .json (.arr [.obj
          [("id", .str "7"), ("text", .str "a")]]))]⟩⟩).getD 0 .null) "id"
        = some (.str "7")
      ∧ objGet (spreadUpdate ((ZenStorage.getTasks ⟨true, ⟨true,
          [(zenTasksKey, .json (.arr [.obj [("id", .str "7"),
            ("text", .str "a")]]))]⟩⟩).getD 0 .null)
          [("id", .str "evil"), ("text", .str "b")] "7") "id"
        = some (.str "7")
      ∧ ZenStorage.updateTask ⟨true, ⟨true, [(zenTasksKey, .json (.arr [.obj
          [("id", .str "7"), ("text", .str "a")]]))]⟩⟩ "7"
          [("id", .str "evil"), ("text", .str "b")]
        = ZenStorage.saveTasks ⟨true, ⟨true, [(zenTasksKey, .json (.arr [.obj
            [("id", .str "7"), ("text", .str "a")]]))]⟩⟩
            ((ZenStorage.getTasks ⟨true, ⟨true, [(zenTasksKey, .json (.arr [.obj
              [("id", .str "7"), ("text", .str "a")]]))]⟩⟩).set 0
              (spreadUpdate ((ZenStorage.getTasks ⟨true, ⟨true,
                [(zenTasksKey, .json (.arr [.obj [("id", .str "7"),
                  ("text", .str "a")]]))]⟩⟩).getD 0 .null)
                [("id", .str "evil"), ("text", .str "b")] "7"))) :=
  ⟨rfl, c9_update_preserves_id ⟨true, ⟨true, [(zenTasksKey, .json (.arr [.obj
      [("id", .str "7"), ("text", .str "a")]]))]⟩⟩ "7"
    [("id", .str "evil"), ("text", .str "b")] 0 rfl⟩

/-! ## Claim C10 -/

/-- Claim C10 counterexample: a record with a numeric id and a non-empty
string text passes the saveTasks shape filter and is persisted by a
successful saveTasks, yet the subsequent getTasks drops it (its id is not
a string), so getTasks does not return every record that passed the save
shape check. -/
theorem c10_counterexample :
    (ZenStorage.saveTasks ⟨true, ⟨true, []⟩⟩
      [.obj [("id", .num 5), ("text", .str "a")]]).1 = true
    ∧ saveTasksKeep (.obj [("id", .num 5), ("text", .str "a")]) = true
    ∧ ZenStorage.getTasks
        (ZenStorage.saveTasks ⟨true, ⟨true, []⟩⟩
          [.obj [("id", .num 5), ("text", .str "a")]]).2 = ([] : List JSValue) := by
  refine ⟨rfl, by decide, rfl⟩

/-- Claim C10 (amended): over an available and working store, saveTasks
succeeds and persists exactly the records passing its shape filter in
their original order, and the subsequent getTasks returns those records
further restricted to the ones whose id is a string (the load-time shape
filter), still in order. -/
theorem c10_save_load_roundtrip (s : ZenStorageState) (tasks : List JSValue)
    (ha : s.isStorageAvailable = true) (hw : s.ls.works = true) :
    (ZenStorage.saveTasks s tasks).1 = true
    ∧ (ZenStorage.saveTasks s tasks).2.ls.getItem zenTasksKey
        = some (.json (.arr (tasks.filter saveTasksKeep)))
    ∧ ZenStorage.getTasks (ZenStorage.saveTasks s tasks).2
        = (tasks.filter saveTasksKeep).filter getTasksKeep
    ∧ ZenStorage.getTasks (ZenStorage.saveTasks s tasks).2
        = tasks.filter (fun t => saveTasksKeep t && getTasksKeep t) := by
  have hsave : ZenStorage.saveTasks s tasks =
      (true, ⟨s.isStorageAvailable,
        s.ls.setItemData zenTasksKey (.json (.arr (tasks.filter saveTasksKeep)))⟩) := by
    simp [ZenStorage.saveTasks, ha, hw]
  have hget : ZenStorage.getTasks (ZenStorage.saveTasks s tasks).2
      = (tasks.filter saveTasksKeep).filter getTasksKeep := by
    rw [hsave]
    simp only [ZenStorage.getTasks, ha, Bool.not_true]
    rw [getItem_setItemData_self]
    simp
  refine ⟨by rw [hsave], by rw [hsave]; exact getItem_setItemData_self _ _ _, hget, ?_⟩
  rw [hget, List.filter_filter]
  exact List.filter_congr (fun t _ => by rw [Bool.and_comm])

/-- Claim C10 witness: a well-shaped record and a null element saved
together; only the well-shaped record survives the round trip. -/
theorem c10_witness :
    (⟨true, ⟨true, []⟩⟩ : ZenStorageState).isStorageAvailable = true
    ∧ (⟨true, ⟨true, []⟩⟩ : ZenStorageState).ls.works = true
    ∧ ((ZenStorage.saveTasks ⟨true, ⟨true, []⟩⟩
          [.obj [("id", .str "1"), ("text", .str "a")], .null]).1 = true
      ∧ (ZenStorage.saveTasks ⟨true, ⟨true, []⟩⟩
          [.obj [("id", .str "1"), ("text", .str "a")], .null]).2.ls.getItem
            zenTasksKey
        = some (.json (.arr ([.obj [("id", .str "1"), ("text", .str "a")],
            .null].filter saveTasksKeep)))
      ∧ ZenStorage.getTasks (ZenStorage.saveTasks ⟨true, ⟨true, []⟩⟩
          [.obj [("id", .str "1"), ("text", .str "a")], .null]).2
        = ([.obj [("id", .str "1"), ("text", .str "a")],
            .null].filter saveTasksKeep).filter getTasksKeep
      ∧ ZenStorage.getTasks (ZenStorage.saveTasks ⟨true, ⟨true, []⟩⟩
          [.obj [("id", .str "1"), ("text", .str "a")], .null]).2
        = [.obj [("id", .str "1"), ("text", .str "a")],
            .null].filter (fun t => saveTasksKeep t && getTasksKeep t)) :=
  ⟨rfl, rfl, c10_save_load_roundtrip ⟨true, ⟨true, []⟩⟩
    [.obj [("id", .str "1"), ("text", .str "a")], .null] rfl rfl⟩
